import Mathlib

/-!
Shallow embedding of the audit-and-notification core of the logic-camp CRM
backend, together with proofs of the spec claims about it.

The embedding follows the Mongoose models:
* `ActivityLog` (audit recorder): schema enums, the sanitize pre-save hook,
  `createLog`, and the TTL retention index on `created_at`.
* `NotificationType` (template registry): `renderTemplate`.
* `Notification` (dispatcher and read-state tracker): the `read_at`
  validator, the pre-save hook, `createNotification`, `markAsRead`,
  `markAsUnread`, `markAllAsRead`, `getUnreadCount`,
  `cleanupOldNotifications`, and the TTL index on read notifications.

JavaScript values carried in the `Mixed` audit snapshots are modelled by
`JSValue`; truthiness follows JavaScript (empty string, zero, `false` and
`null` are falsy).  Timestamps are integer milliseconds.
-/

namespace LogicCamp

/-- A JavaScript value as stored in a `Schema.Types.Mixed` field.  Objects
are association lists of string keys (JS object keys are unique; the
lemmas below are stated via first-key lookup, which matches JS access). -/
inductive JSValue where
  | null : JSValue
  | bool : Bool → JSValue
  | num : Int → JSValue
  | str : String → JSValue
  | obj : List (String × JSValue) → JSValue

/-- JavaScript truthiness of a `JSValue` (`if (v)`): `null`, `false`, `0`
and the empty string are falsy, every object is truthy. -/
def truthy : JSValue → Bool
  | .null => false
  | .bool b => b
  | .num n => n != 0
  | .str s => s != ""
  | .obj _ => true

/-- Whether the value is a JS object (the `typeof data === 'object'` branch
of `sanitizeData`; `null` is handled separately by the `!data` guard). -/
def isObj : JSValue → Bool
  | .obj _ => true
  | _ => false

/-- The fixed sensitive-field set of `ActivityLogSchema.methods.sanitizeData`. -/
def sensitiveFields : List String :=
  ["password", "card_number", "cvv", "ssn", "tax_id"]

/-- The fixed redaction marker written by `sanitizeData`. -/
def redactionMarker : JSValue := .str "***REDACTED***"

/-- The entry-wise effect of the `sensitiveFields.forEach` loop of
`sanitizeData` on one key/value pair of the spread copy: a sensitive key
whose value is truthy is overwritten with the marker (`if (sanitized[field])
sanitized[field] = '***REDACTED***'`); every other entry is untouched. -/
def sanitizeEntry (kv : String × JSValue) : String × JSValue :=
  if kv.1 ∈ sensitiveFields ∧ truthy kv.2 then (kv.1, redactionMarker) else kv

/-- `ActivityLogSchema.methods.sanitizeData` restricted to the fields of an
object input. -/
def sanitizeFields (fields : List (String × JSValue)) : List (String × JSValue) :=
  fields.map sanitizeEntry

/-- `ActivityLogSchema.methods.sanitizeData`: non-objects (and `null`) are
returned unchanged; for an object, sensitive keys with truthy values are
replaced by the redaction marker. -/
def sanitizeData : JSValue → JSValue
  | .obj fields => .obj (sanitizeFields fields)
  | v => v

/-- The pre-save hook of `ActivityLogSchema` applied to one snapshot slot:
`if (this.old_data) this.old_data = this.sanitizeData(this.old_data)`.
The guard is JS truthiness of the stored value. -/
def sanitizeSnapshot : Option JSValue → Option JSValue
  | some v => if truthy v then some (sanitizeData v) else some v
  | none => none

/-- The closed `entity_type` enumeration of `ActivityLogSchema`. -/
def auditEntityTypes : List String :=
  ["users", "customers", "leads", "projects", "project_services",
   "goals", "tasks", "files", "notifications", "notification_types",
   "messages", "message_attachments", "business_directories",
   "customer_charge_details", "upsells"]

/-- The `action` enumeration of `ActivityLogSchema`. -/
def auditActions : List String := ["create", "update", "delete", "view"]

/-- A persisted activity-log document (audit record). -/
structure AuditRecord where
  changed_by : String
  entity_id : String
  entity_type : String
  action : String
  old_data : Option JSValue
  new_data : Option JSValue
  created_at : Int

/-- `ActivityLogSchema.statics.createLog`.  `Model.create` runs schema
validation (the closed `entity_type` and `action` enums) first, then the
sanitize pre-save hook, then persists by appending to the collection.
On a validation failure Mongoose rejects and nothing is persisted. -/
def createLog (changedBy entityId entityType action : String)
    (oldData newData : Option JSValue) (now : Int)
    (store : List AuditRecord) : Except String (List AuditRecord × AuditRecord) :=
  if entityType ∈ auditEntityTypes then
    if action ∈ auditActions then
      let logDoc : AuditRecord :=
        { changed_by := changedBy
          entity_id := entityId
          entity_type := entityType
          action := action
          old_data := sanitizeSnapshot oldData
          new_data := sanitizeSnapshot newData
          created_at := now }
      .ok (store ++ [logDoc], logDoc)
    else .error "Action must be one of: create, update, delete, view"
  else .error "Entity type must be a valid collection name"

/-- The audit collection after a `createLog` call: the appended store on
success, the untouched store when the call is rejected. -/
def createLogStore (changedBy entityId entityType action : String)
    (oldData newData : Option JSValue) (now : Int)
    (store : List AuditRecord) : List AuditRecord :=
  match createLog changedBy entityId entityType action oldData newData now store with
  | .ok (s, _) => s
  | .error _ => store

/-- `expireAfterSeconds: 63072000` (2 years) in milliseconds. -/
def auditRetentionMs : Int := 63072000000

/-- Eligibility under the TTL retention index
`ActivityLogSchema.index({ created_at: 1 }, { expireAfterSeconds: 63072000 })`:
a record expires once `created_at` is at least 2 years in the past. -/
def auditTtlExpired (now : Int) (r : AuditRecord) : Bool :=
  r.created_at + auditRetentionMs ≤ now

/-- One pass of the storage-level TTL sweep over the audit collection at
time `now`: exactly the expired records are removed. -/
def auditTtlSweep (now : Int) (logs : List AuditRecord) : List AuditRecord :=
  logs.filter (fun r => !auditTtlExpired now r)

/-! ## Template registry: `NotificationTypeSchema.methods.renderTemplate`

The method builds, for each key of the supplied variables map, the regex
pattern `{{\s*key\s*}}` (global) and calls `rendered.replace(pattern,
value)`.  The machinery below is a character-level model of exactly that
regex replacement: non-overlapping, left to right, replacements are not
rescanned, the replacement string is interpreted under the JS
`String.replace` rules for `$`-patterns (`$$`, `$&`, the before-match and
after-match slices; the pattern has no capture groups, so every other `$`
sequence stays literal), and — crucially — only keys that are present in
the variables map are ever looked for. -/

/-- JS regex whitespace (`\s`): tab through carriage return, space,
no-break space, and the Unicode space separators. -/
def isJsSpace (c : Char) : Bool :=
  c = ' ' || c = '\t' || c = '\n' || c = '\r' || c = '\x0b' || c = '\x0c'
  || c = '\u00A0' || c = '\u1680' || (0x2000 ≤ c.toNat && c.toNat ≤ 0x200A)
  || c = '\u2028' || c = '\u2029' || c = '\u202F' || c = '\u205F'
  || c = '\u3000' || c = '\uFEFF'

/-- Drop leading JS regex whitespace (`\s*`). -/
def skipSpaces : List Char → List Char
  | [] => []
  | c :: rest =>
    if isJsSpace c then skipSpaces rest else c :: rest

/-- Try to match the pattern `{{\s*key\s*}}` at the head of `s`; on success
return the remainder of `s` after the match. -/
def matchPlaceholder (key : List Char) (s : List Char) : Option (List Char) :=
  match s with
  | c1 :: c2 :: rest =>
    if c1 = '{' ∧ c2 = '{' then
      let afterOpen := skipSpaces rest
      if key.isPrefixOf afterOpen then
        match skipSpaces (afterOpen.drop key.length) with
        | d1 :: d2 :: tail => if d1 = '}' ∧ d2 = '}' then some tail else none
        | _ => none
      else none
    else none
  | _ => none

theorem skipSpaces_length (s : List Char) : (skipSpaces s).length ≤ s.length := by
  induction s with
  | nil => simp [skipSpaces]
  | cons c rest ih =>
    simp only [skipSpaces]
    split
    · exact Nat.le_succ_of_le ih
    · simp

theorem matchPlaceholder_length {key s tail : List Char}
    (h : matchPlaceholder key s = some tail) : tail.length < s.length := by
  match s with
  | [] => simp [matchPlaceholder] at h
  | [c] => simp [matchPlaceholder] at h
  | c1 :: c2 :: rest =>
    simp only [matchPlaceholder] at h
    split at h <;> [skip; exact absurd h (by simp)]
    split at h <;> [skip; exact absurd h (by simp)]
    rename_i hbraces hpre
    split at h
    · rename_i d1 d2 tl heq
      split at h
      · obtain rfl : tl = tail := Option.some.inj h
        have h2 : ((skipSpaces rest).drop key.length).length ≤ (skipSpaces rest).length := by
          simp [List.length_drop]
        have h3 : (skipSpaces rest).length ≤ rest.length := skipSpaces_length rest
        have h1 : (skipSpaces ((skipSpaces rest).drop key.length)).length ≤
            ((skipSpaces rest).drop key.length).length := skipSpaces_length _
        have h4 : tl.length + 2 = (skipSpaces ((skipSpaces rest).drop key.length)).length := by
          rw [heq]; simp
        simp only [List.length_cons]
        omega
      · exact absurd h (by simp)
    · exact absurd h (by simp)

/-- JS `String.replace` interpretation of a string replacement `val` for
one match: `$$` inserts a dollar sign, `$&` the matched substring, a
dollar sign followed by the char `\x60` the slice of the subject before
the match, `$` followed by `\x27` the slice after it; the pattern has no
capture groups, so any other `$` sequence (including a trailing `$`) is
literal. -/
def expandReplacement (val pre matched post : List Char) : List Char :=
  match val with
  | [] => []
  | [c] => [c]
  | c :: d :: rest2 =>
    if c = '$' then
      if d = '$' then '$' :: expandReplacement rest2 pre matched post
      else if d = '&' then matched ++ expandReplacement rest2 pre matched post
      else if d = '\x60' then pre ++ expandReplacement rest2 pre matched post
      else if d = '\x27' then post ++ expandReplacement rest2 pre matched post
      else c :: d :: expandReplacement rest2 pre matched post
    else c :: expandReplacement (d :: rest2) pre matched post

/-- The scan of `rendered.replace(new RegExp(pattern, 'g'), value)`:
left to right over the subject, with `pre` the part of the subject already
passed (needed by the `$`-patterns); each non-overlapping occurrence of
`{{\s*key\s*}}` is replaced by the expanded `val`, and the replacement
text itself is not rescanned. -/
def replaceAux (key val : List Char) (pre : List Char) : List Char → List Char
  | [] => []
  | c :: rest =>
    match h : matchPlaceholder key (c :: rest) with
    | some tail =>
      expandReplacement val pre ((c :: rest).take ((c :: rest).length - tail.length)) tail
        ++ replaceAux key val (pre ++ (c :: rest).take ((c :: rest).length - tail.length)) tail
    | none => c :: replaceAux key val (pre ++ [c]) rest
termination_by s => s.length
decreasing_by
  · exact matchPlaceholder_length h
  · simp

/-- `rendered.replace(new RegExp(pattern, 'g'), value)` on the whole
subject: the scan starts with nothing passed yet. -/
def replacePlaceholder (key val s : List Char) : List Char :=
  replaceAux key val [] s

/-- `NotificationTypeSchema.methods.renderTemplate`: iterate over the keys
of the variables map in order (`Object.keys(variables).forEach`) and apply
the global regex replacement for each.  A value `v` is inserted as
`v || ''`, which for string values is `v` itself (the empty string is its
own JS fallback). -/
def renderTemplate (template : String) (vars : List (String × String)) : String :=
  ⟨vars.foldl
    (fun rendered kv => replacePlaceholder kv.1.toList kv.2.toList rendered)
    template.toList⟩

/-- Scan for an occurrence of the two-character marker opener `{{`
somewhere in the string: a leaked unresolved placeholder. -/
def containsOpenMarker : List Char → Bool
  | [] => false
  | [_] => false
  | a :: b :: rest => (a = '{' ∧ b = '{' : Bool) || containsOpenMarker (b :: rest)

/-- Leading-character guard on a key: it does not start with one of the
whitespace characters the `\s*` of the pattern could absorb. -/
def noLeadingSpace : List Char → Bool
  | [] => true
  | c :: _ => !isJsSpace c

/-- Join a list of text segments with a separator between consecutive
segments: the shape of a template containing one placeholder occurrence
between every two adjacent segments. -/
def joinWith (sep : List Char) : List (List Char) → List Char
  | [] => []
  | [p] => p
  | p :: ps => p ++ sep ++ joinWith sep ps

/-- Whether the placeholder pattern of `key` matches at some position of
the text: the computable scan used to state that a stretch of text
contains no occurrence for this key. -/
def hasMatch (key : List Char) : List Char → Bool
  | [] => false
  | c :: rest => (matchPlaceholder key (c :: rest)).isSome || hasMatch key rest

/-! ## Notifications: dispatcher and read-state tracker -/

/-- A stored notification type (template registry entry), identified by a
numeric stand-in for its ObjectId. -/
structure NotificationType where
  id : Nat
  key : String
  template : String
deriving DecidableEq

/-- A persisted notification document. -/
structure Notification where
  id : Nat
  user_id : String
  triggered_by : Option String
  notification_type_id : Nat
  entity_id : Option String
  entity_type : Option String
  type : String
  title : String
  is_read : Bool
  read_at : Option Int
  created_at : Int
deriving DecidableEq

/-- The closed `entity_type` enumeration of `NotificationSchema`. -/
def notifEntityTypes : List String :=
  ["projects", "tasks", "goals", "leads", "customers",
   "files", "upsells", "messages", "users"]

/-- The `type` enumeration of `NotificationSchema`. -/
def notifSeverities : List String := ["info", "warning", "success", "error"]

/-- Schema validation of a notification document, run by Mongoose before
the user pre-save hooks: the `read_at` custom validator
(`this.is_read ? v != null : v == null`), the `type` and `entity_type`
enums, and the required, bounded `title`. -/
def notifValidate (n : Notification) : Bool :=
  (n.read_at.isSome = n.is_read)
  && n.type ∈ notifSeverities
  && (match n.entity_type with
      | some t => t ∈ notifEntityTypes
      | none => true)
  && n.title ≠ ""
  && n.title.length ≤ 200

/-- The pre-save hook of `NotificationSchema`: when `is_read` is a modified
path, fill `read_at` on a read notification that lacks it and clear it on
an unread one. -/
def notifPreSaveHook (now : Int) (isReadModified : Bool) (n : Notification) : Notification :=
  if isReadModified then
    if n.is_read ∧ n.read_at = none then { n with read_at := some now }
    else if n.is_read = false then { n with read_at := none }
    else n
  else n

/-- `document.save()`: validation first (rejecting persists nothing), then
the pre-save hook, then the write. -/
def saveNotification (now : Int) (isReadModified : Bool)
    (n : Notification) : Except String Notification :=
  if notifValidate n then .ok (notifPreSaveHook now isReadModified n) else .error "ValidationError"

/-- The persisted state the notification core operates on: the template
catalog, the notifications collection, and a fresh-id counter. -/
structure NotifState where
  types : List NotificationType
  notifs : List Notification
  nextId : Nat
deriving DecidableEq

/-- `NotificationType.findOne({ key })` as used by `createNotification`
(exact key match). -/
def findTypeByKey (key : String) (types : List NotificationType) : Option NotificationType :=
  types.find? (fun t => t.key = key)

/-- The document `createNotification` hands to `Model.create`: `is_read`
defaults to false, `read_at` is unset. -/
def newNotificationDoc (userId : String) (nt : NotificationType) (title type : String)
    (triggeredBy entityId entityType : Option String) (now : Int) (nid : Nat) : Notification :=
  { id := nid
    user_id := userId
    triggered_by := triggeredBy
    notification_type_id := nt.id
    entity_id := entityId
    entity_type := entityType
    type := type
    title := title
    is_read := false
    read_at := none
    created_at := now }

/-- `NotificationSchema.statics.createNotification`: resolve the
notification-type key; throw before touching the store when it is unknown;
otherwise build the document and save it.  On a new document every path
counts as modified. -/
def createNotification (userId typeKey title type : String)
    (triggeredBy entityId entityType : Option String) (now : Int)
    (s : NotifState) : Except String (NotifState × Notification) :=
  match findTypeByKey typeKey s.types with
  | none => .error ("Notification type " ++ typeKey ++ " not found")
  | some nt =>
    match saveNotification now true
        (newNotificationDoc userId nt title type triggeredBy entityId entityType now s.nextId) with
    | .ok saved =>
      .ok ({ s with notifs := s.notifs ++ [saved], nextId := s.nextId + 1 }, saved)
    | .error e => .error e

/-- The notification state after a `createNotification` call: updated on
success, untouched when the call is rejected. -/
def createNotificationState (userId typeKey title type : String)
    (triggeredBy entityId entityType : Option String) (now : Int)
    (s : NotifState) : NotifState :=
  match createNotification userId typeKey title type triggeredBy entityId entityType now s with
  | .ok (s2, _) => s2
  | .error _ => s

/-- `NotificationSchema.methods.markAsRead`: set `is_read = true`,
`read_at = new Date()`, save.  `is_read` is a modified path exactly when
it actually changed; the constructed document always passes validation of
the `read_at` validator, and the hook leaves it unchanged because
`read_at` is already set. -/
def markAsRead (now : Int) (n : Notification) : Notification :=
  notifPreSaveHook now (!n.is_read) { n with is_read := true, read_at := some now }

/-- `NotificationSchema.methods.markAsUnread`: set `is_read = false`,
clear `read_at`, save. -/
def markAsUnread (now : Int) (n : Notification) : Notification :=
  notifPreSaveHook now n.is_read { n with is_read := false, read_at := none }

/-- `mark_read(notification_id)` at the store level. -/
def markReadInStore (nid : Nat) (now : Int) (s : NotifState) : NotifState :=
  { s with notifs := s.notifs.map (fun n => if n.id = nid then markAsRead now n else n) }

/-- `mark_unread(notification_id)` at the store level. -/
def markUnreadInStore (nid : Nat) (now : Int) (s : NotifState) : NotifState :=
  { s with notifs := s.notifs.map (fun n => if n.id = nid then markAsUnread now n else n) }

/-- `NotificationSchema.statics.markAllAsRead`: an `updateMany` matching
`{ user_id, is_read: false }` that sets `is_read: true` and `read_at: now`
on every matching document, touching no other document. -/
def markAllAsRead (userId : String) (now : Int) (s : NotifState) : NotifState :=
  { s with notifs := s.notifs.map (fun n =>
      if n.user_id = userId ∧ n.is_read = false then
        { n with is_read := true, read_at := some now }
      else n) }

/-- `NotificationSchema.statics.getUnreadCount`: count of documents with
this `user_id` and `is_read: false`. -/
def getUnreadCount (userId : String) (s : NotifState) : Nat :=
  (s.notifs.filter (fun n => n.user_id = userId ∧ n.is_read = false)).length

/-- One day in milliseconds (`cutoffDate.setDate(getDate() - days)`). -/
def msPerDay : Int := 86400000

/-- The `deleteMany` criterion of `cleanupOldNotifications`:
`{ is_read: true, read_at: { $lt: cutoff } }`.  A missing `read_at` never
satisfies the `$lt` comparison. -/
def shouldDeleteNotification (cutoff : Int) (n : Notification) : Bool :=
  n.is_read && (match n.read_at with
    | some t => t < cutoff
    | none => false)

/-- `NotificationSchema.statics.cleanupOldNotifications(days = 30)`:
delete every read notification whose `read_at` is older than `days` days
before `now`. -/
def cleanupOldNotifications (days : Int) (now : Int) (s : NotifState) : NotifState :=
  let cutoff := now - days * msPerDay
  { s with notifs := s.notifs.filter (fun n => !shouldDeleteNotification cutoff n) }

/-- `expireAfterSeconds: 7776000` (90 days) in milliseconds. -/
def notifTtlMs : Int := 7776000000

/-- Eligibility under the notification TTL index on `read_at` with
`partialFilterExpression: { is_read: true }`: only read notifications are
in the index at all, and they expire 90 days after `read_at`. -/
def notificationTtlExpired (now : Int) (n : Notification) : Bool :=
  n.is_read && (match n.read_at with
    | some t => t + notifTtlMs ≤ now
    | none => false)

/-- The operations of the notification core observed by the read-state
invariant: dispatch, mark_read, mark_unread, mark_all_read. -/
inductive CoreOp where
  | dispatch (userId typeKey title type : String)
      (triggeredBy entityId entityType : Option String)
  | markRead (nid : Nat)
  | markUnread (nid : Nat)
  | markAllRead (userId : String)

/-- Apply one core operation to the store at time `now` (a rejected
dispatch leaves the store unchanged). -/
def applyOp (now : Int) (op : CoreOp) (s : NotifState) : NotifState :=
  match op with
  | .dispatch userId typeKey title type triggeredBy entityId entityType =>
    createNotificationState userId typeKey title type triggeredBy entityId entityType now s
  | .markRead nid => markReadInStore nid now s
  | .markUnread nid => markUnreadInStore nid now s
  | .markAllRead userId => markAllAsRead userId now s

/-- The claimed read-state invariant of a notification document:
`read_at` is present exactly when `is_read` is true. -/
def readAtConsistent (n : Notification) : Prop :=
  n.read_at.isSome = n.is_read

/-! ## Redaction policy and audit recorder: claims C3, C1, C5, C10 -/

/-- Sanitizing an object commutes with first-key lookup: a key's value is
replaced by the marker exactly when the key is sensitive and the value is
truthy, and is untouched otherwise. -/
theorem lookup_sanitizeFields (k : String) (fields : List (String × JSValue)) :
    List.lookup k (sanitizeFields fields) =
      (List.lookup k fields).map
        (fun v => if k ∈ sensitiveFields ∧ truthy v then redactionMarker else v) := by
  induction fields with
  | nil => rfl
  | cons kv rest ih =>
    obtain ⟨k1, v1⟩ := kv
    by_cases hs : k1 ∈ sensitiveFields ∧ truthy v1
    · simp only [sanitizeFields, List.map_cons, sanitizeEntry, if_pos hs] at *
      by_cases hk : k = k1
      · subst hk
        simp [List.lookup, hs]
      · simp [List.lookup, beq_eq_false_iff_ne.mpr hk, ih]
    · simp only [sanitizeFields, List.map_cons, sanitizeEntry, if_neg hs] at *
      by_cases hk : k = k1
      · subst hk
        simp [List.lookup, hs]
      · simp [List.lookup, beq_eq_false_iff_ne.mpr hk, ih]

/-- C3 (counterexample): the claim says every present key of the sensitive
set is replaced by the marker, but `sanitizeData` tests JS truthiness, not
presence: a `password` key present with the empty-string value is stored
unchanged, not as the marker. -/
theorem sanitizeData_present_falsy_not_redacted :
    sanitizeData (JSValue.obj [("password", JSValue.str "")])
      = JSValue.obj [("password", JSValue.str "")]
    ∧ JSValue.str "" ≠ redactionMarker := by
  refine ⟨rfl, ?_⟩
  intro h
  simp [redactionMarker] at h

/-- C3 (amended): `sanitizeData` is a partial identity outside the
sensitive-field set: a non-sensitive key keeps its value, a sensitive key
present with a truthy value is replaced by the fixed marker (one present
with a falsy value is kept as supplied), a non-object input is returned
unchanged, and the function is total. -/
theorem sanitizeData_identity_outside_sensitive (fields : List (String × JSValue))
    (k : String) (v : JSValue) (hlk : List.lookup k fields = some v) :
    (k ∉ sensitiveFields → List.lookup k (sanitizeFields fields) = some v)
    ∧ (k ∈ sensitiveFields → truthy v = true →
        List.lookup k (sanitizeFields fields) = some redactionMarker)
    ∧ sanitizeData (JSValue.obj fields) = JSValue.obj (sanitizeFields fields)
    ∧ (∀ w : JSValue, isObj w = false → sanitizeData w = w) := by
  refine ⟨fun hk => ?_, fun hk ht => ?_, rfl, fun w hw => ?_⟩
  · rw [lookup_sanitizeFields, hlk]
    simp [hk]
  · rw [lookup_sanitizeFields, hlk]
    simp [hk, ht]
  · cases w <;> simp [isObj] at hw ⊢ <;> rfl

/-- C3 (witness): the amended theorem applied to the concrete object
`{password: "p1", name: "Bob"}` — the non-sensitive `name` passes through,
the truthy sensitive `password` becomes the marker, and the non-object
input `"x"` is returned unchanged. -/
theorem sanitizeData_identity_outside_sensitive_witness :
    List.lookup "name"
        (sanitizeFields [("password", JSValue.str "p1"), ("name", JSValue.str "Bob")])
      = some (JSValue.str "Bob")
    ∧ List.lookup "password"
        (sanitizeFields [("password", JSValue.str "p1"), ("name", JSValue.str "Bob")])
      = some redactionMarker
    ∧ sanitizeData (JSValue.obj [("password", JSValue.str "p1"), ("name", JSValue.str "Bob")])
        = JSValue.obj (sanitizeFields [("password", JSValue.str "p1"), ("name", JSValue.str "Bob")])
    ∧ sanitizeData (JSValue.str "x") = JSValue.str "x" := by
  have h1 := sanitizeData_identity_outside_sensitive
    [("password", JSValue.str "p1"), ("name", JSValue.str "Bob")] "name" (JSValue.str "Bob") rfl
  have h2 := sanitizeData_identity_outside_sensitive
    [("password", JSValue.str "p1"), ("name", JSValue.str "Bob")] "password" (JSValue.str "p1") rfl
  exact ⟨h1.1 (by decide), h2.2.1 (by decide) rfl, h1.2.2.1, h1.2.2.2 (JSValue.str "x") rfl⟩

/-- C5: `createLog` with an `entity_kind` outside the closed enumeration is
rejected with the schema's invalid-entity-type error and persists nothing:
the audit collection is unchanged. -/
theorem createLog_invalid_entity_kind (changedBy entityId entityType action : String)
    (oldData newData : Option JSValue) (now : Int) (store : List AuditRecord)
    (h : entityType ∉ auditEntityTypes) :
    createLog changedBy entityId entityType action oldData newData now store
      = .error "Entity type must be a valid collection name"
    ∧ createLogStore changedBy entityId entityType action oldData newData now store = store := by
  have h1 : createLog changedBy entityId entityType action oldData newData now store
      = .error "Entity type must be a valid collection name" := by
    simp [createLog, h]
  exact ⟨h1, by simp [createLogStore, h1]⟩

/-- C5 (witness): `createLog` with `entity_kind = "invoices"` on a
one-record store is rejected and leaves the store unchanged. -/
theorem createLog_invalid_entity_kind_witness :
    createLog "a" "e" "invoices" "update" none none 5
        [AuditRecord.mk "b" "f" "users" "create" none none 0]
      = .error "Entity type must be a valid collection name"
    ∧ createLogStore "a" "e" "invoices" "update" none none 5
        [AuditRecord.mk "b" "f" "users" "create" none none 0]
      = [AuditRecord.mk "b" "f" "users" "create" none none 0] :=
  createLog_invalid_entity_kind "a" "e" "invoices" "update" none none 5
    [AuditRecord.mk "b" "f" "users" "create" none none 0] (by decide)

/-- C1 (counterexample): the claim says every sensitive field present in a
snapshot is stored as the redaction marker, but the sanitize hook tests JS
truthiness: a `cvv` field supplied with the (falsy) value `0` is persisted
as `0`, a caller-supplied plaintext value, not as the marker. -/
theorem createLog_falsy_cvv_not_redacted :
    (createLog "u1" "e1" "customers" "update"
        (some (JSValue.obj [("cvv", JSValue.num 0)])) none 0 []).map
        (fun p => p.2.old_data)
      = .ok (some (JSValue.obj [("cvv", JSValue.num 0)]))
    ∧ JSValue.num 0 ≠ redactionMarker := by
  refine ⟨rfl, ?_⟩
  intro h
  simp [redactionMarker] at h

/-- C1 (amended): a valid `createLog` call persists exactly one record,
whose snapshots are the sanitized inputs — sanitized before the append —
and in them every sensitive field that was supplied with a truthy value is
stored as the fixed redaction marker (a sensitive field supplied with a
falsy value such as the empty string or 0 is stored as supplied). -/
theorem createLog_redacts_before_persist
    (changedBy entityId entityType action : String)
    (oldData newData : Option JSValue) (now : Int) (store : List AuditRecord)
    (k : String) (ofields nfields : List (String × JSValue)) (v w : JSValue)
    (hv : entityType ∈ auditEntityTypes) (ha : action ∈ auditActions) :
    ∃ r : AuditRecord,
      createLog changedBy entityId entityType action oldData newData now store
        = .ok (store ++ [r], r)
      ∧ r.old_data = sanitizeSnapshot oldData
      ∧ r.new_data = sanitizeSnapshot newData
      ∧ (k ∈ sensitiveFields → oldData = some (JSValue.obj ofields) →
          List.lookup k ofields = some v → truthy v = true →
          r.old_data = some (JSValue.obj (sanitizeFields ofields))
          ∧ List.lookup k (sanitizeFields ofields) = some redactionMarker)
      ∧ (k ∈ sensitiveFields → newData = some (JSValue.obj nfields) →
          List.lookup k nfields = some w → truthy w = true →
          r.new_data = some (JSValue.obj (sanitizeFields nfields))
          ∧ List.lookup k (sanitizeFields nfields) = some redactionMarker) := by
  refine ⟨AuditRecord.mk changedBy entityId entityType action
      (sanitizeSnapshot oldData) (sanitizeSnapshot newData) now,
    ?_, rfl, rfl, fun hk ho hl ht => ⟨?_, ?_⟩, fun hk hn hl ht => ⟨?_, ?_⟩⟩
  · simp [createLog, hv, ha]
  · subst ho
    simp [sanitizeSnapshot, truthy, sanitizeData]
  · rw [lookup_sanitizeFields, hl]
    simp [hk, ht]
  · subst hn
    simp [sanitizeSnapshot, truthy, sanitizeData]
  · rw [lookup_sanitizeFields, hl]
    simp [hk, ht]

/-- C1 (witness): the amended theorem applied to the spec scenario —
`record(actor=a, "users", u, "update", {password: p1, name: Bob},
{password: p2, name: Bob})`: the persisted record carries the sanitized
snapshots, in which `password` is the redaction marker. -/
theorem createLog_redacts_before_persist_witness :
    (createLog "a" "u" "users" "update"
        (some (JSValue.obj [("password", JSValue.str "p1"), ("name", JSValue.str "Bob")]))
        (some (JSValue.obj [("password", JSValue.str "p2"), ("name", JSValue.str "Bob")]))
        0 []).map (fun p => p.2.old_data)
      = .ok (some (JSValue.obj (sanitizeFields
          [("password", JSValue.str "p1"), ("name", JSValue.str "Bob")])))
    ∧ (createLog "a" "u" "users" "update"
        (some (JSValue.obj [("password", JSValue.str "p1"), ("name", JSValue.str "Bob")]))
        (some (JSValue.obj [("password", JSValue.str "p2"), ("name", JSValue.str "Bob")]))
        0 []).map (fun p => p.2.new_data)
      = .ok (some (JSValue.obj (sanitizeFields
          [("password", JSValue.str "p2"), ("name", JSValue.str "Bob")])))
    ∧ List.lookup "password" (sanitizeFields
        [("password", JSValue.str "p1"), ("name", JSValue.str "Bob")])
      = some redactionMarker
    ∧ List.lookup "password" (sanitizeFields
        [("password", JSValue.str "p2"), ("name", JSValue.str "Bob")])
      = some redactionMarker := by
  obtain ⟨r, hok, hold, hnew, ho2, hn2⟩ := createLog_redacts_before_persist
    "a" "u" "users" "update"
    (some (JSValue.obj [("password", JSValue.str "p1"), ("name", JSValue.str "Bob")]))
    (some (JSValue.obj [("password", JSValue.str "p2"), ("name", JSValue.str "Bob")]))
    0 [] "password"
    [("password", JSValue.str "p1"), ("name", JSValue.str "Bob")]
    [("password", JSValue.str "p2"), ("name", JSValue.str "Bob")]
    (JSValue.str "p1") (JSValue.str "p2") (by decide) (by decide)
  obtain ⟨ha1, ha2⟩ := ho2 (by decide) rfl rfl (by decide)
  obtain ⟨hb1, hb2⟩ := hn2 (by decide) rfl rfl (by decide)
  rw [hok]
  exact ⟨by simp [Except.map, ha1], by simp [Except.map, hb1], ha2, hb2⟩

/-- C10: the audit retention rule is the TTL index on `created_at` with a
2-year horizon: a record strictly younger than 2 years is never expired
and survives any sweep; a record at least 2 years old is expired, is
removed by any sweep from then on, and expiry is monotone in time (once
eligible, always eligible — so the record is eventually removed by
whichever later sweep runs). -/
theorem auditRetention_two_years (r : AuditRecord) (logs : List AuditRecord) (now later : Int) :
    (now < r.created_at + auditRetentionMs →
        auditTtlExpired now r = false ∧ (r ∈ logs → r ∈ auditTtlSweep now logs))
    ∧ (r.created_at + auditRetentionMs ≤ now →
        auditTtlExpired now r = true ∧ r ∉ auditTtlSweep now logs)
    ∧ (auditTtlExpired now r = true → now ≤ later → auditTtlExpired later r = true) := by
  refine ⟨fun h => ⟨?_, fun hm => ?_⟩, fun h => ⟨?_, ?_⟩, fun h hle => ?_⟩
  · simp [auditTtlExpired]
    omega
  · have hx : auditTtlExpired now r = false := by
      simp [auditTtlExpired]
      omega
    simp [auditTtlSweep, List.mem_filter, hm, hx]
  · simp [auditTtlExpired]
    omega
  · intro hmem
    rw [auditTtlSweep] at hmem
    have hx := (List.mem_filter.mp hmem).2
    simp [auditTtlExpired] at hx
    omega
  · simp [auditTtlExpired] at h ⊢
    omega

/-- C10 (witness): the theorem applied to a concrete record created at
time 0 in a one-record store: at time 1 (younger than 2 years) it is not
expired and survives the sweep; at time 63072000000 (exactly 2 years) it
is expired and the sweep removes it. -/
theorem auditRetention_two_years_witness :
    auditTtlExpired 1 (AuditRecord.mk "a" "e" "users" "create" none none 0) = false
    ∧ AuditRecord.mk "a" "e" "users" "create" none none 0
        ∈ auditTtlSweep 1 [AuditRecord.mk "a" "e" "users" "create" none none 0]
    ∧ auditTtlExpired 63072000000 (AuditRecord.mk "a" "e" "users" "create" none none 0) = true
    ∧ AuditRecord.mk "a" "e" "users" "create" none none 0
        ∉ auditTtlSweep 63072000000 [AuditRecord.mk "a" "e" "users" "create" none none 0] := by
  have hy := auditRetention_two_years (AuditRecord.mk "a" "e" "users" "create" none none 0)
    [AuditRecord.mk "a" "e" "users" "create" none none 0] 1 1
  have ho := auditRetention_two_years (AuditRecord.mk "a" "e" "users" "create" none none 0)
    [AuditRecord.mk "a" "e" "users" "create" none none 0] 63072000000 63072000000
  refine ⟨(hy.1 (by decide)).1, (hy.1 (by decide)).2 ?_, (ho.2.1 (by decide)).1,
    (ho.2.1 (by decide)).2⟩
  exact List.mem_singleton.mpr rfl

/-! ## Notification core: claims C4, C7, C6, C9, C8 -/

/-- `markAsRead` always yields the document with `is_read = true` and
`read_at = now`: the pre-save hook does not change it because `read_at`
is already set by the method itself. -/
theorem markAsRead_eq (now : Int) (n : Notification) :
    markAsRead now n = { n with is_read := true, read_at := some now } := by
  cases hb : n.is_read <;> simp [markAsRead, notifPreSaveHook, hb]

/-- `markAsUnread` always yields the document with `is_read = false` and
`read_at` cleared. -/
theorem markAsUnread_eq (now : Int) (n : Notification) :
    markAsUnread now n = { n with is_read := false, read_at := none } := by
  cases hb : n.is_read <;> simp [markAsUnread, notifPreSaveHook, hb]

/-- Shape of a successful `createNotification`: the catalog is untouched,
exactly the one new document is appended, and it is unread for the target
user with no `read_at`. -/
theorem createNotification_ok {userId typeKey title type : String}
    {triggeredBy entityId entityType : Option String} {now : Int}
    {s s2 : NotifState} {saved : Notification}
    (h : createNotification userId typeKey title type triggeredBy entityId entityType now s
          = .ok (s2, saved)) :
    s2.types = s.types
    ∧ s2.notifs = s.notifs ++ [saved]
    ∧ saved.user_id = userId
    ∧ saved.is_read = false
    ∧ saved.read_at = none := by
  unfold createNotification at h
  cases hf : findTypeByKey typeKey s.types with
  | none =>
    rw [hf] at h
    exact absurd h (by simp)
  | some nt =>
    rw [hf] at h
    have hhook : notifPreSaveHook now true
        (newNotificationDoc userId nt title type triggeredBy entityId entityType now s.nextId)
      = newNotificationDoc userId nt title type triggeredBy entityId entityType now s.nextId := by
      simp [notifPreSaveHook, newNotificationDoc]
    by_cases hval : notifValidate
        (newNotificationDoc userId nt title type triggeredBy entityId entityType now s.nextId)
    · simp only [saveNotification, if_pos hval, hhook] at h
      have hpair := Except.ok.inj h
      have hs2 : s2 = { s with
          notifs := s.notifs ++
            [newNotificationDoc userId nt title type triggeredBy entityId entityType now s.nextId]
          nextId := s.nextId + 1 } := (congrArg Prod.fst hpair).symm
      have hsaved : saved
          = newNotificationDoc userId nt title type triggeredBy entityId entityType now s.nextId :=
        (congrArg Prod.snd hpair).symm
      subst hs2
      subst hsaved
      simp [newNotificationDoc]
    · simp only [saveNotification, if_neg hval] at h
      exact absurd h (by simp)

/-- C4: `createNotification` with a `template_key` that matches no stored
notification type throws the not-found error before anything is written:
no notification is created and the state is unchanged. -/
theorem createNotification_unknown_template (userId typeKey title type : String)
    (triggeredBy entityId entityType : Option String) (now : Int) (s : NotifState)
    (h : findTypeByKey typeKey s.types = none) :
    createNotification userId typeKey title type triggeredBy entityId entityType now s
      = .error ("Notification type " ++ typeKey ++ " not found")
    ∧ createNotificationState userId typeKey title type triggeredBy entityId entityType now s
      = s := by
  have h1 : createNotification userId typeKey title type triggeredBy entityId entityType now s
      = .error ("Notification type " ++ typeKey ++ " not found") := by
    unfold createNotification
    rw [h]
  exact ⟨h1, by simp [createNotificationState, h1]⟩

/-- C4 (witness): dispatching with key `missing` against an empty catalog
fails with the not-found error and leaves the state unchanged. -/
theorem createNotification_unknown_template_witness :
    createNotification "u1" "missing" "t" "info" none none none 0 (NotifState.mk [] [] 0)
      = .error ("Notification type " ++ "missing" ++ " not found")
    ∧ createNotificationState "u1" "missing" "t" "info" none none none 0 (NotifState.mk [] [] 0)
      = NotifState.mk [] [] 0 :=
  createNotification_unknown_template "u1" "missing" "t" "info" none none none 0
    (NotifState.mk [] [] 0) rfl

/-- C7: `markAsRead` is idempotent — a second `markAsRead` yields exactly
the state a single call would produce, and the re-marked notification is
(still, observably successfully) read. -/
theorem markAsRead_idempotent (t1 t2 : Int) (n : Notification) :
    markAsRead t2 (markAsRead t1 n) = markAsRead t2 n
    ∧ (markAsRead t1 n).is_read = true := by
  simp [markAsRead_eq]

/-- C6: the read-state invariant — `read_at` present exactly when
`is_read` is true — holds for every notification after every core
operation (dispatch, mark_read, mark_unread, mark_all_read), provided it
held before the operation. -/
theorem readAt_iff_isRead (now : Int) (op : CoreOp) (s : NotifState)
    (h : ∀ n ∈ s.notifs, readAtConsistent n) :
    ∀ n ∈ (applyOp now op s).notifs, readAtConsistent n := by
  cases op with
  | dispatch userId typeKey title type triggeredBy entityId entityType =>
    simp only [applyOp, createNotificationState]
    cases hc : createNotification userId typeKey title type triggeredBy entityId entityType now s
      with
    | error e => exact h
    | ok p =>
      obtain ⟨s2, saved⟩ := p
      obtain ⟨_, hn, _, hread, hra⟩ := createNotification_ok hc
      intro n hn2
      rw [hn] at hn2
      rcases List.mem_append.mp hn2 with hmem | hmem
      · exact h n hmem
      · have hns : n = saved := by simpa using hmem
        subst hns
        simp [readAtConsistent, hread, hra]
  | markRead nid =>
    intro n hn
    simp only [applyOp, markReadInStore] at hn
    obtain ⟨m, hm, rfl⟩ := List.mem_map.mp hn
    by_cases hid : m.id = nid
    · simp [hid, markAsRead_eq, readAtConsistent]
    · simpa [hid] using h m hm
  | markUnread nid =>
    intro n hn
    simp only [applyOp, markUnreadInStore] at hn
    obtain ⟨m, hm, rfl⟩ := List.mem_map.mp hn
    by_cases hid : m.id = nid
    · simp [hid, markAsUnread_eq, readAtConsistent]
    · simpa [hid] using h m hm
  | markAllRead userId =>
    intro n hn
    simp only [applyOp, markAllAsRead] at hn
    obtain ⟨m, hm, rfl⟩ := List.mem_map.mp hn
    by_cases hc : m.user_id = userId ∧ m.is_read = false
    · simp [hc, readAtConsistent]
    · simpa [hc] using h m hm

/-- C6 (witness): running mark_read on a one-notification store whose
single notification is unread yields the read document with `read_at`
set, which satisfies the invariant. -/
theorem readAt_iff_isRead_witness :
    readAtConsistent (Notification.mk 0 "u1" none 1 none none "info" "t" true (some 5) 0) :=
  readAt_iff_isRead 5 (CoreOp.markRead 0)
    (NotifState.mk [] [Notification.mk 0 "u1" none 1 none none "info" "t" false none 0] 1)
    (by
      intro n hn
      rw [List.mem_singleton] at hn
      subst hn
      rfl)
    (Notification.mk 0 "u1" none 1 none none "info" "t" true (some 5) 0)
    (by decide)

/-- After `markAllAsRead userId`, the unread count of `userId` is zero. -/
theorem getUnreadCount_markAllAsRead (userId : String) (now : Int) (s : NotifState) :
    getUnreadCount userId (markAllAsRead userId now s) = 0 := by
  simp only [getUnreadCount, markAllAsRead]
  induction s.notifs with
  | nil => rfl
  | cons m rest ih =>
    by_cases hc : m.user_id = userId ∧ m.is_read = false
    · simpa [hc] using ih
    · rw [List.map_cons, if_neg hc, List.filter_cons]
      simpa [hc] using ih

/-- C9: `markAllAsRead userId` drops the unread count of that user to
zero, keeps the collection's length, leaves every other user's
notifications exactly as they were, marks every notification of that user
read, and a subsequent successful dispatch to that user leaves the unread
count at exactly one. -/
theorem markAllAsRead_spec (userId : String) (now : Int) (s : NotifState) :
    getUnreadCount userId (markAllAsRead userId now s) = 0
    ∧ (markAllAsRead userId now s).notifs.length = s.notifs.length
    ∧ (∀ (i : Nat) (hi : i < s.notifs.length) (hi2 : i < (markAllAsRead userId now s).notifs.length),
        ((s.notifs.get ⟨i, hi⟩).user_id ≠ userId →
          (markAllAsRead userId now s).notifs.get ⟨i, hi2⟩ = s.notifs.get ⟨i, hi⟩)
        ∧ ((s.notifs.get ⟨i, hi⟩).user_id = userId →
            ((markAllAsRead userId now s).notifs.get ⟨i, hi2⟩).is_read = true))
    ∧ (∀ (typeKey title type : String) (triggeredBy entityId entityType : Option String)
        (now2 : Int) (s2 : NotifState) (saved : Notification),
        createNotification userId typeKey title type triggeredBy entityId entityType now2
            (markAllAsRead userId now s) = .ok (s2, saved) →
        getUnreadCount userId s2 = 1) := by
  refine ⟨getUnreadCount_markAllAsRead userId now s, by simp [markAllAsRead],
    fun i hi hi2 => ?_, ?_⟩
  · have hget : (markAllAsRead userId now s).notifs.get ⟨i, hi2⟩
        = (if (s.notifs.get ⟨i, hi⟩).user_id = userId ∧ (s.notifs.get ⟨i, hi⟩).is_read = false then
            { s.notifs.get ⟨i, hi⟩ with is_read := true, read_at := some now }
          else s.notifs.get ⟨i, hi⟩) := by
      simp [markAllAsRead, List.get_eq_getElem, List.getElem_map]
    constructor
    · intro hne
      rw [hget, if_neg (fun hc => hne hc.1)]
    · intro heq
      rw [hget]
      by_cases hr : (s.notifs.get ⟨i, hi⟩).is_read = false
      · rw [if_pos ⟨heq, hr⟩]
      · rw [if_neg (fun hc => hr hc.2)]
        simpa using hr
  · intro typeKey title type triggeredBy entityId entityType now2 s2 saved hok
    obtain ⟨_, hnotifs, huser, hread, _⟩ := createNotification_ok hok
    have h0 := getUnreadCount_markAllAsRead userId now s
    simp only [getUnreadCount] at h0 ⊢
    rw [hnotifs, List.filter_append, List.length_append, h0]
    simp [huser, hread]

/-- C9 (witness): on a catalog with one template and no notifications,
`mark_all_read(u1)` gives unread count 0, and a dispatch to u1 right after
gives unread count 1. -/
theorem markAllAsRead_spec_witness :
    getUnreadCount "u1"
        (markAllAsRead "u1" 5 (NotifState.mk [NotificationType.mk 1 "k" "T"] [] 0)) = 0
    ∧ getUnreadCount "u1"
        (NotifState.mk [NotificationType.mk 1 "k" "T"]
          [Notification.mk 0 "u1" none 1 none none "info" "hello" false none 6] 1) = 1 := by
  have h := markAllAsRead_spec "u1" 5 (NotifState.mk [NotificationType.mk 1 "k" "T"] [] 0)
  exact ⟨h.1, h.2.2.2 "k" "hello" "info" none none none 6
    (NotifState.mk [NotificationType.mk 1 "k" "T"]
      [Notification.mk 0 "u1" none 1 none none "info" "hello" false none 6] 1)
    (Notification.mk 0 "u1" none 1 none none "info" "hello" false none 6) rfl⟩

/-- C8: `cleanupOldNotifications` deletes exactly the notifications with
`is_read = true` and `read_at` older than the cutoff (`now` minus the
threshold in days): a notification survives iff it was in the store and
does not meet the deletion criterion; an unread notification never meets
it, survives regardless of age, and is likewise never eligible under the
read-notification TTL index. -/
theorem cleanupOldNotifications_spec (days now : Int) (s : NotifState) (n : Notification) :
    (n ∈ (cleanupOldNotifications days now s).notifs ↔
        n ∈ s.notifs ∧ shouldDeleteNotification (now - days * msPerDay) n = false)
    ∧ (n.is_read = false →
        shouldDeleteNotification (now - days * msPerDay) n = false
        ∧ (n ∈ s.notifs → n ∈ (cleanupOldNotifications days now s).notifs)
        ∧ (∀ t : Int, notificationTtlExpired t n = false)) := by
  have hmem : n ∈ (cleanupOldNotifications days now s).notifs ↔
      n ∈ s.notifs ∧ shouldDeleteNotification (now - days * msPerDay) n = false := by
    simp [cleanupOldNotifications, List.mem_filter]
  refine ⟨hmem, fun hr => ⟨?_, ?_, ?_⟩⟩
  · simp [shouldDeleteNotification, hr]
  · intro hm
    exact hmem.mpr ⟨hm, by simp [shouldDeleteNotification, hr]⟩
  · intro t
    simp [notificationTtlExpired, hr]

/-- C8 (witness): an unread notification of extreme age (negative
`created_at`, far before the 30-day cutoff) is not deletion-eligible,
survives `cleanup(30)`, and is not TTL-eligible even far in the future. -/
theorem cleanupOldNotifications_spec_witness :
    shouldDeleteNotification (0 - 30 * msPerDay)
        (Notification.mk 0 "u" none 1 none none "info" "t" false none (-99999999999999)) = false
    ∧ Notification.mk 0 "u" none 1 none none "info" "t" false none (-99999999999999)
        ∈ (cleanupOldNotifications 30 0
            (NotifState.mk []
              [Notification.mk 0 "u" none 1 none none "info" "t" false none (-99999999999999)]
              1)).notifs
    ∧ notificationTtlExpired 99999999999999
        (Notification.mk 0 "u" none 1 none none "info" "t" false none (-99999999999999)) = false := by
  have h := (cleanupOldNotifications_spec 30 0
    (NotifState.mk []
      [Notification.mk 0 "u" none 1 none none "info" "t" false none (-99999999999999)] 1)
    (Notification.mk 0 "u" none 1 none none "info" "t" false none (-99999999999999))).2 rfl
  exact ⟨h.1, h.2.1 (List.mem_singleton.mpr rfl), h.2.2 99999999999999⟩

/-! ## Template rendering: claim C2 -/

theorem replaceAux_nil (key val pre : List Char) : replaceAux key val pre [] = [] := by
  rw [replaceAux]

theorem replaceAux_cons_none (key val pre : List Char) (c : Char) (rest : List Char)
    (h : matchPlaceholder key (c :: rest) = none) :
    replaceAux key val pre (c :: rest) = c :: replaceAux key val (pre ++ [c]) rest := by
  rw [replaceAux]
  split
  · rename_i tail ht
    rw [h] at ht
    exact absurd ht (by simp)
  · rfl

theorem replaceAux_cons_some (key val pre : List Char) (c : Char) (rest tail : List Char)
    (h : matchPlaceholder key (c :: rest) = some tail) :
    replaceAux key val pre (c :: rest)
      = expandReplacement val pre ((c :: rest).take ((c :: rest).length - tail.length)) tail
        ++ replaceAux key val (pre ++ (c :: rest).take ((c :: rest).length - tail.length)) tail := by
  rw [replaceAux]
  split
  · rename_i tl ht
    rw [h] at ht
    obtain rfl : tail = tl := Option.some.inj ht
    rfl
  · rename_i ht
    rw [h] at ht
    exact absurd ht (by simp)

/-- A replacement string without a dollar sign is inserted verbatim: no
`$`-pattern of JS `String.replace` can fire in it. -/
theorem expandReplacement_no_dollar : ∀ (val : List Char), (∀ c ∈ val, c ≠ '$') →
    ∀ (pre matched post : List Char), expandReplacement val pre matched post = val
  | [], _, _, _, _ => rfl
  | [_], _, _, _, _ => rfl
  | c :: d :: rest2, hv, pre, matched, post => by
    have hc : c ≠ '$' := hv c (List.mem_cons_self c (d :: rest2))
    have ih := expandReplacement_no_dollar (d :: rest2)
      (fun e he => hv e (List.mem_cons_of_mem c he)) pre matched post
    simp only [expandReplacement, if_neg hc]
    simp only [expandReplacement] at ih
    exact congrArg (c :: ·) ih

/-- The pattern requires an opening brace: at any other character the
scan just moves on. -/
theorem matchPlaceholder_cons_ne (key : List Char) (c : Char) (l : List Char)
    (h : c ≠ '{') : matchPlaceholder key (c :: l) = none := by
  cases l with
  | nil => rfl
  | cons c2 rest => simp [matchPlaceholder, h]

/-- The replacement scan passes over a brace-free prefix unchanged,
accumulating it into the already-passed part of the subject. -/
theorem replaceAux_append_no_brace (key val : List Char) (p : List Char)
    (hp : ∀ c ∈ p, c ≠ '{') :
    ∀ (pre s : List Char),
      replaceAux key val pre (p ++ s) = p ++ replaceAux key val (pre ++ p) s := by
  induction p with
  | nil =>
    intro pre s
    simp
  | cons c p2 ih =>
    intro pre s
    have hc : c ≠ '{' := hp c (List.mem_cons_self c p2)
    rw [List.cons_append,
      replaceAux_cons_none key val pre c (p2 ++ s) (matchPlaceholder_cons_ne key c _ hc),
      ih (fun d hd => hp d (List.mem_cons_of_mem c hd)) (pre ++ [c]) s]
    simp

/-- The replacement is the identity on brace-free text. -/
theorem replaceAux_no_brace_id (key val pre s : List Char)
    (hs : ∀ c ∈ s, c ≠ '{') :
    replaceAux key val pre s = s := by
  have h := replaceAux_append_no_brace key val s hs pre []
  simpa [replaceAux_nil] using h

theorem skipSpaces_not_space (c : Char) (t : List Char) (h : isJsSpace c = false) :
    skipSpaces (c :: t) = c :: t := by
  simp [skipSpaces, h]

/-- A list is a literal prefix of itself followed by anything. -/
theorem isPrefixOf_append_self (key r : List Char) : key.isPrefixOf (key ++ r) = true := by
  induction key with
  | nil => cases r <;> rfl
  | cons c t ih => simp [List.isPrefixOf, ih]

/-- The pattern `\x7b\x7b\s*key\s*\x7d\x7d` matches at an exact
`\x7b\x7bkey\x7d\x7d` occurrence and consumes precisely it. -/
theorem matchPlaceholder_at_placeholder (key suf : List Char)
    (hk : noLeadingSpace key = true) :
    matchPlaceholder key ('{' :: '{' :: (key ++ '}' :: '}' :: suf)) = some suf := by
  have hskip1 : skipSpaces (key ++ '}' :: '}' :: suf) = key ++ '}' :: '}' :: suf := by
    cases key with
    | nil =>
      simp only [List.nil_append]
      exact skipSpaces_not_space '}' _ (by decide)
    | cons c t =>
      simp only [noLeadingSpace, Bool.not_eq_true'] at hk
      rw [List.cons_append]
      exact skipSpaces_not_space c _ hk
  have hpre : key.isPrefixOf (key ++ '}' :: '}' :: suf) = true :=
    isPrefixOf_append_self key _
  have hdrop : (key ++ '}' :: '}' :: suf).drop key.length = '}' :: '}' :: suf :=
    List.drop_left key _
  simp only [matchPlaceholder, if_pos (And.intro rfl rfl), hskip1, hpre, if_true, hdrop]
  rw [skipSpaces_not_space '}' _ (by decide)]
  simp

/-- When the replacement string has no dollar sign, the already-passed
part of the subject never influences the scan result. -/
theorem replaceAux_pre_bounded (key val : List Char) (hv : ∀ c ∈ val, c ≠ '$') :
    ∀ (n : Nat) (s : List Char), s.length ≤ n →
      ∀ (pre1 pre2 : List Char), replaceAux key val pre1 s = replaceAux key val pre2 s := by
  intro n
  induction n with
  | zero =>
    intro s hs pre1 pre2
    obtain rfl : s = [] := List.length_eq_zero.mp (Nat.le_zero.mp hs)
    rw [replaceAux_nil, replaceAux_nil]
  | succ n ih =>
    intro s hs pre1 pre2
    match s with
    | [] => rw [replaceAux_nil, replaceAux_nil]
    | c :: rest =>
      cases hm : matchPlaceholder key (c :: rest) with
      | some tail =>
        rw [replaceAux_cons_some key val pre1 c rest tail hm,
          replaceAux_cons_some key val pre2 c rest tail hm,
          expandReplacement_no_dollar val hv, expandReplacement_no_dollar val hv]
        have hlt := matchPlaceholder_length hm
        have htl : tail.length ≤ n := by
          simp only [List.length_cons] at hs hlt ⊢
          omega
        rw [ih tail htl _ _]
      | none =>
        rw [replaceAux_cons_none key val pre1 c rest hm,
          replaceAux_cons_none key val pre2 c rest hm]
        have hr : rest.length ≤ n := by
          simp only [List.length_cons] at hs
          omega
        rw [ih rest hr _ _]

theorem replaceAux_pre_eq (key val : List Char) (hv : ∀ c ∈ val, c ≠ '$')
    (s pre1 pre2 : List Char) : replaceAux key val pre1 s = replaceAux key val pre2 s :=
  replaceAux_pre_bounded key val hv s.length s le_rfl pre1 pre2

/-- Text with no occurrence of the key's placeholder passes through the
scan unchanged. -/
theorem replaceAux_no_match (key val : List Char) :
    ∀ (s pre : List Char), hasMatch key s = false → replaceAux key val pre s = s
  | [], pre, _ => replaceAux_nil key val pre
  | c :: rest, pre, h => by
    rw [hasMatch, Bool.or_eq_false_iff] at h
    obtain ⟨h1, h2⟩ := h
    have hnone : matchPlaceholder key (c :: rest) = none := by
      cases hm : matchPlaceholder key (c :: rest) with
      | none => rfl
      | some tail => rw [hm] at h1; exact absurd h1 (by simp)
    rw [replaceAux_cons_none key val pre c rest hnone,
      replaceAux_no_match key val rest (pre ++ [c]) h2]

/-- Scanning from an exact placeholder occurrence replaces it by the
(dollar-free) value and continues after it. -/
theorem replaceAux_at_placeholder (key val : List Char)
    (hk : noLeadingSpace key = true) (hv : ∀ c ∈ val, c ≠ '$')
    (pre pre2 suf : List Char) :
    replaceAux key val pre ('{' :: '{' :: (key ++ '}' :: '}' :: suf))
      = val ++ replaceAux key val pre2 suf := by
  rw [replaceAux_cons_some key val pre '{' ('{' :: (key ++ '}' :: '}' :: suf)) suf
      (matchPlaceholder_at_placeholder key suf hk),
    expandReplacement_no_dollar val hv,
    replaceAux_pre_eq key val hv suf _ pre2]

/-- The global replacement hits every occurrence: on a template made of
any number of brace-free segments joined by `\x7b\x7bkey\x7d\x7d`
occurrences, every occurrence becomes the value (a replace-first
implementation would fail this for three or more segments). -/
theorem replacePlaceholder_joinWith (key val : List Char)
    (hk : noLeadingSpace key = true) (hv : ∀ c ∈ val, c ≠ '$')
    (segs : List (List Char)) (hsegs : ∀ seg ∈ segs, ∀ c ∈ seg, c ≠ '{') :
    replacePlaceholder key val (joinWith ('{' :: '{' :: (key ++ ['}', '}'])) segs)
      = joinWith val segs := by
  rw [replacePlaceholder]
  suffices h : ∀ pre,
      replaceAux key val pre (joinWith ('{' :: '{' :: (key ++ ['}', '}'])) segs)
        = joinWith val segs from h []
  induction segs with
  | nil =>
    intro pre
    rw [joinWith, joinWith, replaceAux_nil]
  | cons p ps ih =>
    intro pre
    match ps with
    | [] =>
      exact replaceAux_no_brace_id key val pre p (hsegs p (List.mem_cons_self p []))
    | q :: ps2 =>
      have hp : ∀ c ∈ p, c ≠ '{' := hsegs p (List.mem_cons_self p (q :: ps2))
      have hrest : ∀ seg ∈ q :: ps2, ∀ c ∈ seg, c ≠ '{' :=
        fun seg hseg => hsegs seg (List.mem_cons_of_mem p hseg)
      have hshape : joinWith ('{' :: '{' :: (key ++ ['}', '}'])) (p :: q :: ps2)
          = p ++ ('{' :: '{' :: (key ++ '}' :: '}' ::
              joinWith ('{' :: '{' :: (key ++ ['}', '}'])) (q :: ps2))) := by
        show p ++ ('{' :: '{' :: (key ++ ['}', '}']))
            ++ joinWith ('{' :: '{' :: (key ++ ['}', '}'])) (q :: ps2) = _
        simp
      rw [hshape,
        replaceAux_append_no_brace key val p hp pre _,
        replaceAux_at_placeholder key val hk hv (pre ++ p) pre _,
        ih hrest pre]
      show _ = p ++ val ++ joinWith val (q :: ps2)
      simp

/-- C2 (counterexample): the claim says a placeholder whose name is absent
from the values map is replaced by the empty string and that unresolved
markers never appear in the output; but `renderTemplate` only iterates
over the keys of the supplied map, so rendering the template
`Hello \x7b\x7bwho\x7d\x7d` with an empty values map returns it verbatim:
the unresolved marker leaks, and the output is not the claimed
`Hello ` (empty-string substitution). -/
theorem renderTemplate_unresolved_leaks :
    renderTemplate "Hello \x7b\x7bwho\x7d\x7d" [] = "Hello \x7b\x7bwho\x7d\x7d"
    ∧ containsOpenMarker ("Hello \x7b\x7bwho\x7d\x7d".toList) = true
    ∧ ("Hello \x7b\x7bwho\x7d\x7d" : String) ≠ "Hello " :=
  ⟨rfl, by decide, by decide⟩

/-- C2 (amended): rendering is total, and for a name present in the values
map every occurrence of its `\x7b\x7bname\x7d\x7d` placeholder is replaced
by that name's value — shown for templates with any number of occurrences
separated by brace-free text, for dollar-free values (the embedding
carries the JS `$`-pattern replacement rules, which the claim does not
exercise); a name absent from the values map is not looked for at all —
rendering with an empty map is the identity, so unresolved markers stay in
the output rather than becoming the empty string.  The last conjunct runs
the repository's own seeded two-placeholder `task_assigned` template with
both names present. -/
theorem renderTemplate_replaces_present (k v : String) (segs : List (List Char))
    (hsegs : ∀ seg ∈ segs, ∀ c ∈ seg, c ≠ '{')
    (hk : noLeadingSpace k.toList = true)
    (hv : ∀ c ∈ v.toList, c ≠ '$') :
    renderTemplate ⟨joinWith ('{' :: '{' :: (k.toList ++ ['}', '}'])) segs⟩ [(k, v)]
      = ⟨joinWith v.toList segs⟩
    ∧ (∀ t : String, renderTemplate t [] = t)
    ∧ renderTemplate
        "You have been assigned a new task: \"\x7b\x7btask_title\x7d\x7d\" in project \"\x7b\x7bproject_name\x7d\x7d\"."
        [("task_title", "Fix bug"), ("project_name", "Alpha")]
      = "You have been assigned a new task: \"Fix bug\" in project \"Alpha\"." := by
  refine ⟨?_, fun t => rfl, ?_⟩
  · exact congrArg (fun l => (⟨l⟩ : String))
      (replacePlaceholder_joinWith k.toList v.toList hk hv segs hsegs)
  · have h1 : replacePlaceholder "task_title".toList "Fix bug".toList
        ("You have been assigned a new task: \"\x7b\x7btask_title\x7d\x7d\" in project \"\x7b\x7bproject_name\x7d\x7d\".").toList
        = ("You have been assigned a new task: \"").toList
          ++ ("Fix bug".toList ++ ("\" in project \"\x7b\x7bproject_name\x7d\x7d\".").toList) := by
      have hsplit : ("You have been assigned a new task: \"\x7b\x7btask_title\x7d\x7d\" in project \"\x7b\x7bproject_name\x7d\x7d\".").toList
          = ("You have been assigned a new task: \"").toList
            ++ ('{' :: '{' :: ("task_title".toList ++ '}' :: '}' ::
                ("\" in project \"\x7b\x7bproject_name\x7d\x7d\".").toList)) := by decide
      rw [replacePlaceholder, hsplit,
        replaceAux_append_no_brace _ _ _ (by decide) _ _,
        replaceAux_at_placeholder _ _ (by decide) (by decide) _ [] _,
        replaceAux_no_match _ _ _ _ (by decide)]
    have h2 : replacePlaceholder "project_name".toList "Alpha".toList
        (("You have been assigned a new task: \"").toList
          ++ ("Fix bug".toList ++ ("\" in project \"\x7b\x7bproject_name\x7d\x7d\".").toList))
        = ("You have been assigned a new task: \"Fix bug\" in project \"Alpha\".").toList := by
      have hsplit2 : ("You have been assigned a new task: \"").toList
            ++ ("Fix bug".toList ++ ("\" in project \"\x7b\x7bproject_name\x7d\x7d\".").toList)
          = ("You have been assigned a new task: \"Fix bug\" in project \"").toList
            ++ ('{' :: '{' :: ("project_name".toList ++ '}' :: '}' :: ("\".").toList)) := by
        decide
      have hfinal : ("You have been assigned a new task: \"Fix bug\" in project \"").toList
            ++ ("Alpha".toList ++ ("\".").toList)
          = ("You have been assigned a new task: \"Fix bug\" in project \"Alpha\".").toList := by
        decide
      rw [replacePlaceholder, hsplit2,
        replaceAux_append_no_brace _ _ _ (by decide) _ _,
        replaceAux_at_placeholder _ _ (by decide) (by decide) _ [] _,
        replaceAux_no_brace_id _ _ _ _ (by decide), hfinal]
    simp only [renderTemplate, List.foldl]
    rw [h1, h2]
    rfl

/-- C2 (witness): the amended theorem applied to a three-segment template
— two occurrences of the `task_title` placeholder, both replaced — plus
the empty-map identity on concrete text and the seeded two-key
`task_assigned` scenario. -/
theorem renderTemplate_replaces_present_witness :
    renderTemplate ⟨joinWith ('{' :: '{' :: ("task_title".toList ++ ['}', '}']))
        ["Task ".toList, " duplicates ".toList, ".".toList]⟩ [("task_title", "Fix bug")]
      = ⟨joinWith "Fix bug".toList ["Task ".toList, " duplicates ".toList, ".".toList]⟩
    ∧ renderTemplate "plain text" [] = "plain text"
    ∧ renderTemplate
        "You have been assigned a new task: \"\x7b\x7btask_title\x7d\x7d\" in project \"\x7b\x7bproject_name\x7d\x7d\"."
        [("task_title", "Fix bug"), ("project_name", "Alpha")]
      = "You have been assigned a new task: \"Fix bug\" in project \"Alpha\"." := by
  have h := renderTemplate_replaces_present "task_title" "Fix bug"
    ["Task ".toList, " duplicates ".toList, ".".toList]
    (by decide) (by decide) (by decide)
  exact ⟨h.1, h.2.1 "plain text", h.2.2⟩

end LogicCamp
